import Mathlib

/-!
Shallow embedding of the calendar ingestion and LED display pipeline of
`src/Abfuhrkalender.ino`.

The embedding models, directly from the source:
* the trash-type constants (colors and labels),
* `parseIcsLine` (the event extractor, including its `static bool trigger`
  and the global `events` array with its `numberOfEvents` counter),
* the line-reassembly loop inside `getIcs` (trimming, the all-digits
  continuation flag `onlyDigitsInLine`, the `oldLine` buffer, the
  `zeroLines` early break) together with the HTTP outcome handling,
* `isEventOnDate`, the event scan of `updateLeds` that fills the global
  `todaysEvents` array, the LED color computation, and the static
  day/month rollover state (`lastMonth`, `lastDay`, `firstRun`).

C integer behavior is made explicit: `uint8_t` stores are taken modulo
256, C `int` values are `Int`.  The fixed 100-slot `events` array is a
`List Event` of length 100 updated with `List.set`; the `todaysEvents`
array writes are represented as a growing list (so an out-of-bounds
write of the C code shows up as a list longer than the declared
capacity `trashTypeCount`).  Wall-clock acquisition is external: the
`tm` values for today and tomorrow are parameters.
-/

namespace Abfuhrkalender

/-- `numOfNeoPixels` constant of the sketch. -/
def numOfNeoPixels : Nat := 3

/-- `maxNumberOfEvents` constant of the sketch. -/
def maxNumberOfEvents : Nat := 100

/-- Number of `TrashType` variants (`TrashType::COUNT`). -/
def trashTypeCount : Nat := 5

/-- `TrashTypeRed` color table. -/
def TrashTypeRed : List Nat := [150, 150, 200, 1, 0]

/-- `TrashTypeGreen` color table. -/
def TrashTypeGreen : List Nat := [150, 20, 200, 1, 255]

/-- `TrashTypeBlue` color table. -/
def TrashTypeBlue : List Nat := [140, 0, 0, 255, 0]

/-- The date marker literal `"DTSTART;VALUE=DATE:"`. -/
def eventTrigger : List Char := "DTSTART;VALUE=DATE:".toList

/-- The category marker literal `"SUMMARY:"`. -/
def eventTypeTrigger : List Char := "SUMMARY:".toList

/-- The five category labels, in enumeration order. -/
def TrashTypeStrings : List (List Char) :=
  ["Restabfall".toList, "Bioabfall".toList, "Wertstoff".toList,
   "Papiertonne".toList, "Tannenbaum".toList]

/-- One stored calendar event (`struct Event`); `type` is the numeric
value of the `TrashType` enum, `year`, `month`, `day` are the `uint8_t`
fields. -/
structure Event where
  type : Nat
  year : Nat
  month : Nat
  day : Nat
deriving DecidableEq, Repr

/-- The day tag of a matched event (`enum TodaysEventDay`). -/
inductive TodaysEventDay where
  | TODAY
  | TOMORROW
deriving DecidableEq, Repr

/-- One matched event (`struct TodaysEvent`). -/
structure TodaysEvent where
  type : Nat
  day : TodaysEventDay
deriving DecidableEq, Repr

/-- C `strstr(s, pat) != NULL`: does `pat` occur as a contiguous
substring of `s`? -/
def containsSubstr (pat : List Char) : List Char → Bool
  | [] => pat.isEmpty
  | c :: rest => pat.isPrefixOf (c :: rest) || containsSubstr pat rest

/-- C `isspace` on the ASCII characters that occur in text lines. -/
def isSpaceChar (c : Char) : Bool :=
  c = ' ' || c = '\t' || c = '\n' || c = Char.ofNat 11 || c = Char.ofNat 12 || c = '\r'

/-- Arduino `String::trim()`: strip `isspace` characters from both ends. -/
def trimLine (l : List Char) : List Char :=
  ((l.dropWhile isSpaceChar).reverse.dropWhile isSpaceChar).reverse

/-- Digit accumulator of C `atoi`. -/
def atoiDigits : List Char → Nat → Nat
  | [], acc => acc
  | c :: rest, acc =>
    if c.isDigit then atoiDigits rest (acc * 10 + (c.toNat - 48)) else acc

/-- C `atoi`: skip leading whitespace, optional sign, then leading
digits; no digits yields 0. -/
def atoi (s : List Char) : Int :=
  let s1 := s.dropWhile isSpaceChar
  match s1 with
  | '-' :: rest => -(atoiDigits rest 0 : Int)
  | '+' :: rest => (atoiDigits rest 0 : Int)
  | _ => (atoiDigits s1 0 : Int)

/-- State of the event extractor: the `static bool trigger` of
`parseIcsLine`, the global 100-slot `events` array, and the global
`numberOfEvents` counter. -/
structure FetchState where
  trigger : Bool
  events : List Event
  numberOfEvents : Nat
deriving DecidableEq, Repr

/-- The zero-initialized global `events` array. -/
def initEvents : List Event := List.replicate maxNumberOfEvents ⟨0, 0, 0, 0⟩

/-- Globals at program start: `trigger = false`, zeroed array, count 0. -/
def initFetchState : FetchState := ⟨false, initEvents, 0⟩

/-- Write the date fields of `events[i]` (the type field is untouched,
as in the source). -/
def setEventDate (l : List Event) (i y m d : Nat) : List Event :=
  l.set i { l.getD i ⟨0, 0, 0, 0⟩ with year := y, month := m, day := d }

/-- Write the type field of `events[i]`. -/
def setEventType (l : List Event) (i ty : Nat) : List Event :=
  l.set i { l.getD i ⟨0, 0, 0, 0⟩ with type := ty }

/-- The category search loop of `parseIcsLine`: index of the first label
occurring in the line, `trashTypeCount` when none does. -/
def findTrashType (line : List Char) : Nat :=
  match TrashTypeStrings.findIdx? (fun s => containsSubstr s line) with
  | some i => i
  | none => trashTypeCount

/-- `parseIcsLine` of the sketch: capacity check first, then the date
marker branch (parse YYYYMMDD at the fixed offsets, `uint8_t` stores
modulo 256, set `trigger`), then the category marker branch (only when
`trigger` is set: resolve the first matching label, commit the event by
incrementing `numberOfEvents` when a label matched). -/
def parseIcsLine (st : FetchState) (line : List Char) : FetchState :=
  if maxNumberOfEvents ≤ st.numberOfEvents then st
  else if containsSubstr eventTrigger line then
    let yearStr := (line.drop eventTrigger.length).take 4
    let monthStr := (line.drop (eventTrigger.length + 4)).take 2
    let dayStr := (line.drop (eventTrigger.length + 6)).take 2
    let y := ((atoi yearStr - 2000) % 256).toNat
    let m := (atoi monthStr % 256).toNat
    let d := (atoi dayStr % 256).toNat
    { st with trigger := true,
              events := setEventDate st.events st.numberOfEvents y m d }
  else if st.trigger && containsSubstr eventTypeTrigger line then
    let ty := findTrashType line
    let events1 := setEventType st.events st.numberOfEvents ty
    if ty < trashTypeCount then
      { trigger := false, events := events1,
        numberOfEvents := st.numberOfEvents + 1 }
    else
      { st with trigger := false, events := events1 }
  else st

/-- Loop-local state of the line reassembly inside `getIcs`: the parser
globals, the pending `oldLine` buffer and the `onlyDigitsInLine` flag. -/
structure FoldState where
  fs : FetchState
  oldLine : List Char
  onlyDigitsInLine : Bool
deriving DecidableEq, Repr

/-- Body of the read loop of `getIcs` for one non-empty raw line:
trim, append the current line to `oldLine` when the PREVIOUS line was
all-digits, recompute the all-digits flag, and on a non-digit line emit
the pending buffer to `parseIcsLine` and restart it. -/
def lineBody (s : FoldState) (raw : List Char) : FoldState :=
  let line := trimLine raw
  let oldLine1 := if s.onlyDigitsInLine then s.oldLine ++ line else s.oldLine
  let skipOldLine := s.onlyDigitsInLine
  let onlyDigits := line.all Char.isDigit
  if !onlyDigits then
    let fs1 := if oldLine1 ≠ [] then parseIcsLine s.fs oldLine1 else s.fs
    ⟨fs1, if skipOldLine then [] else line, onlyDigits⟩
  else
    ⟨s.fs, oldLine1, onlyDigits⟩

/-- The read loop of `getIcs` over the response body: zero-length lines
bump `zeroLines` and two in a row break out; non-empty lines reset the
counter and go through `lineBody`. -/
def runLoop : FoldState → Nat → List (List Char) → FoldState
  | s, _, [] => s
  | s, zeroLines, raw :: rest =>
    if raw.length = 0 then
      if 2 ≤ zeroLines + 1 then s
      else runLoop s (zeroLines + 1) rest
    else runLoop (lineBody s raw) 0 rest

/-- `HTTP_CODE_OK`. -/
def HTTP_CODE_OK : Int := 200

/-- Outcome of the transport layer as `getIcs` observes it: connection
establishment failed, or an HTTP result code together with the response
body lines. -/
inductive Transport where
  | connectFail : Transport
  | httpResult : Int → List (List Char) → Transport

/-- `getIcs` of the sketch: the three early failure returns (unable to
connect, non-positive HTTP code, HTTP code other than OK) leave the
globals untouched; on an OK response `numberOfEvents` is reset to 0 and
the body is fed through the line loop; zero parsed events is reported
as failure. -/
def getIcs (st : FetchState) (tr : Transport) : Bool × FetchState :=
  match tr with
  | .connectFail => (false, st)
  | .httpResult httpCode body =>
    if httpCode ≤ 0 then (false, st)
    else if httpCode ≠ HTTP_CODE_OK then (false, st)
    else
      let final := runLoop ⟨{ st with numberOfEvents := 0 }, [], false⟩ 0 body
      if final.fs.numberOfEvents = 0 then (false, final.fs)
      else (true, final.fs)

/-- The fields of `struct tm` that the sketch reads. -/
structure Tm where
  tm_year : Int
  tm_mon : Int
  tm_mday : Int
deriving DecidableEq, Repr

/-- `isEventOnDate` of the sketch. -/
def isEventOnDate (e : Event) (t : Tm) : Bool :=
  ((e.year : Int) + 100 == t.tm_year) && ((e.month : Int) == t.tm_mon + 1)
    && ((e.day : Int) == t.tm_mday)

/-- Red component of a trash type (`TrashTypeRed[index]`). -/
def colorRed (ty : Nat) : Nat := TrashTypeRed.getD ty 0

/-- Green component of a trash type. -/
def colorGreen (ty : Nat) : Nat := TrashTypeGreen.getD ty 0

/-- Blue component of a trash type. -/
def colorBlue (ty : Nat) : Nat := TrashTypeBlue.getD ty 0

/-- An RGB triple as handed to `pixels.setPixelColor`. -/
structure Color where
  r : Nat
  g : Nat
  b : Nat
deriving DecidableEq, Repr

/-- RGB color of a trash type. -/
def colorOfType (ty : Nat) : Color := ⟨colorRed ty, colorGreen ty, colorBlue ty⟩

/-- The loop-carried variables of the event scan in `updateLeds`: the
global `todaysEvents` list built so far (array writes represented by
appending), the `r`, `g`, `b` color bytes, and the `thisDay` / `nextDay`
flags of the most recently examined event. -/
structure ScanState where
  todaysEvents : List TodaysEvent
  r : Nat
  g : Nat
  b : Nat
  thisDay : Bool
  nextDay : Bool
deriving DecidableEq, Repr

/-- One iteration of the event scan in `updateLeds`: test the event
against today and tomorrow; on a match append a `TodaysEvent` (the
`day` field is written for `thisDay` first and then overwritten for
`nextDay`, so `TOMORROW` wins when both hold) and load the event's
color into `r`, `g`, `b`. -/
def todayScanStep (timeinfo timeinfoNextDay : Tm) (s : ScanState) (e : Event) :
    ScanState :=
  let thisDay := isEventOnDate e timeinfo
  let nextDay := isEventOnDate e timeinfoNextDay
  if thisDay || nextDay then
    { todaysEvents :=
        s.todaysEvents ++
          [⟨e.type, if nextDay then TodaysEventDay.TOMORROW else TodaysEventDay.TODAY⟩],
      r := colorRed e.type, g := colorGreen e.type, b := colorBlue e.type,
      thisDay := thisDay, nextDay := nextDay }
  else
    { s with thisDay := thisDay, nextDay := nextDay }

/-- Scan-state at loop entry: `numberOfTodaysEvents = 0`, colors zeroed,
flags false. -/
def initScan : ScanState := ⟨[], 0, 0, 0, false, false⟩

/-- The full event scan of `updateLeds` over the stored events. -/
def todayScan (timeinfo timeinfoNextDay : Tm) (evs : List Event) : ScanState :=
  evs.foldl (todayScanStep timeinfo timeinfoNextDay) initScan

/-- The LED assignment computed from a finished scan state, before the
fetch-failure overlay: the single-match branch (non-center slots are
blacked out when the `thisDay` flag is set), the multi-match branch
(slot 0 black, slots `1..N-1` take the colors of the first `N-1`
matches), and the zero-match `pixels.clear()`. -/
def ledBase (s : ScanState) : List Color :=
  if s.todaysEvents.length = 1 then
    (List.range numOfNeoPixels).map fun p =>
      if (p != numOfNeoPixels / 2) && s.thisDay then ⟨0, 0, 0⟩
      else ⟨s.r, s.g, s.b⟩
  else if 1 < s.todaysEvents.length then
    ⟨0, 0, 0⟩ :: ((List.range (numOfNeoPixels - 1)).map fun q =>
      colorOfType ((s.todaysEvents.getD q ⟨0, TodaysEventDay.TODAY⟩).type))
  else
    List.replicate numOfNeoPixels ⟨0, 0, 0⟩

/-- The LED colors committed by `pixels.show()` in `updateLeds`: the
base rule, with slot 0 forced to full red when the last fetch attempt
failed. -/
def computeLeds (timeinfo timeinfoNextDay : Tm) (evs : List Event)
    (lastEventUpdateSuccessful : Bool) : List Color :=
  let base := ledBase (todayScan timeinfo timeinfoNextDay evs)
  if lastEventUpdateSuccessful then base else base.set 0 ⟨255, 0, 0⟩

/-- The static rollover variables of `updateLeds`.  In the source
`firstRun` is initialized to `true` and never assigned afterwards. -/
structure RolloverState where
  lastMonth : Int
  lastDay : Int
  firstRun : Bool
deriving DecidableEq, Repr

/-- `updateLeds` of the sketch, given the current and next-day `tm`
values, the stored events and the fetch verdict.  `none` for the
rollover state models the very first call (the statics are initialized
from the current time).  The third component is `none` exactly when the
function returned early without recomputing `todaysEvents` or calling
`pixels.show()`; otherwise it carries the rebuilt `todaysEvents` list
and the committed LED colors.  The returned `Bool` is the `newMonth`
flag. -/
def updateLeds (ro : Option RolloverState) (timeinfo timeinfoNextDay : Tm)
    (evs : List Event) (lastEventUpdateSuccessful : Bool) :
    Bool × RolloverState × Option (List TodaysEvent × List Color) :=
  let s0 : RolloverState :=
    match ro with
    | some s => s
    | none => ⟨timeinfo.tm_mon, timeinfo.tm_mday, true⟩
  if !s0.firstRun && (s0.lastDay == timeinfo.tm_mday) then
    (false, s0, none)
  else
    let scanned := todayScan timeinfo timeinfoNextDay evs
    let leds := computeLeds timeinfo timeinfoNextDay evs lastEventUpdateSuccessful
    let newMonth := s0.lastMonth != timeinfo.tm_mon
    (newMonth, ⟨timeinfo.tm_mon, timeinfo.tm_mday, s0.firstRun⟩,
      some (scanned.todaysEvents, leds))

/-- A date marker line carrying the date 2025-03-15. -/
def dateLine : List Char := "DTSTART;VALUE=DATE:20250315".toList

/-- A category marker line carrying the `Restabfall` label. -/
def summaryLine : List Char := "SUMMARY:Restabfall".toList

/-- A line matching neither marker, not all-digits. -/
def endLine : List Char := "END".toList

/-- A stream of `n` valid date+category logical line pairs. -/
def validPairs : Nat → List (List Char)
  | 0 => []
  | n + 1 => dateLine :: summaryLine :: validPairs n

/-- C1 counterexample: six identical valid date+category pairs parse to
six stored events all dated 2025-03-15 with category 0; refreshing on
that date appends SIX `TodaysEvent` entries — more than the five
`TrashType` variants and more than one entry for category 0 — so the
write `todaysEvents[numberOfTodaysEvents]` runs past the 5-slot array. -/
theorem c1_overflow_counterexample :
    (((validPairs 6).foldl parseIcsLine initFetchState).numberOfEvents = 6)
    ∧ ((((validPairs 6).foldl parseIcsLine initFetchState).events.take 6) =
        List.replicate 6 ⟨0, 25, 3, 15⟩)
    ∧ ((todayScan ⟨125, 2, 15⟩ ⟨125, 2, 16⟩
          (List.replicate 6 ⟨0, 25, 3, 15⟩)).todaysEvents.length = 6)
    ∧ (¬ (todayScan ⟨125, 2, 15⟩ ⟨125, 2, 16⟩
          (List.replicate 6 ⟨0, 25, 3, 15⟩)).todaysEvents.length ≤ trashTypeCount)
    ∧ ((todayScan ⟨125, 2, 15⟩ ⟨125, 2, 16⟩
          (List.replicate 6 ⟨0, 25, 3, 15⟩)).todaysEvents.all
            (fun te => te.type == 0) = true) := by
  decide

/-- C1 amended: the scan of `updateLeds` appends exactly one
`TodaysEvent` entry per stored event matching today or tomorrow — no
per-category deduplication and no capacity check — so the entry count
equals the number of matching stored events and stays within the 5-slot
`todaysEvents` array only when at most five stored events match. -/
theorem c1_scan_appends_per_match (t tn : Tm) (evs : List Event) :
    (todayScan t tn evs).todaysEvents.length =
      (evs.filter fun e => isEventOnDate e t || isEventOnDate e tn).length := by
  have key : ∀ (l : List Event) (s : ScanState),
      (l.foldl (todayScanStep t tn) s).todaysEvents.length =
        s.todaysEvents.length +
          (l.filter fun e => isEventOnDate e t || isEventOnDate e tn).length := by
    intro l
    induction l with
    | nil => intro s; simp
    | cons e rest ih =>
      intro s
      rw [List.foldl_cons, ih]
      by_cases h : (isEventOnDate e t || isEventOnDate e tn) = true
      · simp [todayScanStep, h, List.filter_cons]
        omega
      · simp [todayScanStep, h, List.filter_cons]
  simpa [todayScan, initScan] using key evs initScan

/-- C3 counterexample: with the degenerate clock where today and
tomorrow are the same date, a single event on that date yields exactly
one `TodaysEvent` entry, but it is tagged `TOMORROW`, not `TODAY` as the
claim states. -/
theorem c3_today_priority_counterexample :
    ((todayScan ⟨125, 2, 15⟩ ⟨125, 2, 15⟩ [⟨0, 25, 3, 15⟩]).todaysEvents =
      [⟨0, TodaysEventDay.TOMORROW⟩])
    ∧ ((todayScan ⟨125, 2, 15⟩ ⟨125, 2, 15⟩ [⟨0, 25, 3, 15⟩]).todaysEvents ≠
      [⟨0, TodaysEventDay.TODAY⟩]) := by
  decide

/-- C3 amended: an event matching both the today and the tomorrow date
produces exactly one `TodaysEvent` entry, tagged `TOMORROW` — the
`nextDay` assignment executes after the `thisDay` one, so Tomorrow, not
Today, takes priority by evaluation order. -/
theorem c3_both_days_tagged_tomorrow (t tn : Tm) (s : ScanState) (e : Event)
    (h1 : isEventOnDate e t = true) (h2 : isEventOnDate e tn = true) :
    (todayScanStep t tn s e).todaysEvents =
      s.todaysEvents ++ [⟨e.type, TodaysEventDay.TOMORROW⟩] := by
  simp [todayScanStep, h1, h2]

/-- Witness for the C3 amended theorem at a concrete input. -/
theorem c3_both_days_tagged_tomorrow_witness :
    (isEventOnDate ⟨0, 25, 3, 15⟩ ⟨125, 2, 15⟩ = true)
    ∧ (isEventOnDate ⟨0, 25, 3, 15⟩ ⟨125, 2, 15⟩ = true)
    ∧ ((todayScanStep ⟨125, 2, 15⟩ ⟨125, 2, 15⟩ initScan ⟨0, 25, 3, 15⟩).todaysEvents =
        initScan.todaysEvents ++ [⟨0, TodaysEventDay.TOMORROW⟩]) :=
  ⟨by decide, by decide,
    c3_both_days_tagged_tomorrow ⟨125, 2, 15⟩ ⟨125, 2, 15⟩ initScan ⟨0, 25, 3, 15⟩
      (by decide) (by decide)⟩

/-- C4: the same-day short-circuit of `updateLeds` is dead code.  The
static `firstRun` is initialized to `true` and never assigned again, so
`!firstRun && lastDay == today.day` never holds: after a first tick on
2025-03-31 leaves the rollover state with `lastDay = 31` (and `firstRun`
still `true`), a second tick on the same day returns `false` as claimed
but still performs a full refresh — it rebuilds `todaysEvents` and
commits a new LED show (here a different one, since the fetch verdict
changed), instead of doing nothing. -/
theorem c4_same_day_tick_still_refreshes :
    ((updateLeds none ⟨125, 2, 31⟩ ⟨125, 3, 1⟩ [] true).2.1 =
      ⟨2, 31, true⟩)
    ∧ ((updateLeds (some ⟨2, 31, true⟩) ⟨125, 2, 31⟩ ⟨125, 3, 1⟩ [] false).1 = false)
    ∧ ((updateLeds (some ⟨2, 31, true⟩) ⟨125, 2, 31⟩ ⟨125, 3, 1⟩ [] false).2.2.isSome
        = true)
    ∧ ((updateLeds (some ⟨2, 31, true⟩) ⟨125, 2, 31⟩ ⟨125, 3, 1⟩ [] false).2.2 ≠
        (updateLeds none ⟨125, 2, 31⟩ ⟨125, 3, 1⟩ [] true).2.2) := by
  decide

/-- C5 counterexample: with the previous line not all-digits and a
pending buffer `"A"`, the digit line `"12"` emits nothing but its text
is NOT appended to the pending buffer — the buffer stays `"A"` (the
claim predicts `"A12"`); only the stale `onlyDigitsInLine` flag is set. -/
theorem c5_append_counterexample :
    ((lineBody ⟨initFetchState, ['A'], false⟩ ['1', '2']).oldLine = ['A'])
    ∧ ((lineBody ⟨initFetchState, ['A'], false⟩ ['1', '2']).oldLine ≠ ['A', '1', '2'])
    ∧ ((lineBody ⟨initFetchState, ['A'], false⟩ ['1', '2']).fs = initFetchState)
    ∧ ((lineBody ⟨initFetchState, ['A'], false⟩ ['1', '2']).onlyDigitsInLine = true) := by
  decide

/-- C5 amended: a trimmed, non-empty, all-digit line never emits
anything to the event extractor and sets the continuation flag, but its
own text is appended to the pending buffer only when the PREVIOUS line
was itself all-digits; after a non-digit line the digit line's text is
dropped (the start-of-iteration append adds the current line exactly
when the previous line's flag is set). -/
theorem c5_digit_line_keeps_buffer (s : FoldState) (raw : List Char)
    (_hne : trimLine raw ≠ [])
    (hdig : (trimLine raw).all Char.isDigit = true) :
    lineBody s raw =
      ⟨s.fs,
       if s.onlyDigitsInLine then s.oldLine ++ trimLine raw else s.oldLine,
       true⟩ := by
  simp [lineBody, hdig]

/-- Witness for the C5 amended theorem at a concrete input. -/
theorem c5_digit_line_keeps_buffer_witness :
    (trimLine ['1', '2'] ≠ [])
    ∧ ((trimLine ['1', '2']).all Char.isDigit = true)
    ∧ (lineBody ⟨initFetchState, ['A'], true⟩ ['1', '2'] =
        ⟨initFetchState, ['A', '1', '2'], true⟩) := by
  refine ⟨by decide, by decide, ?_⟩
  have h := c5_digit_line_keeps_buffer ⟨initFetchState, ['A'], true⟩ ['1', '2']
    (by decide) (by decide)
  simpa using h

/-- C9: the `static bool trigger` of `parseIcsLine` is not reset when a
new fetch begins.  A first fetch whose stream ends with a date marker
line (no category line after it) leaves `trigger = true` and the parsed
date in slot 0; the next fetch's stream starts with a category marker
line with no preceding date marker, yet that line commits an event using
the date fields left in the target slot by the previous fetch, instead
of being ignored as an orphan. -/
theorem c9_stale_trigger_commits :
    ((getIcs initFetchState (.httpResult 200 [dateLine, endLine])).2.trigger = true)
    ∧ ((getIcs initFetchState (.httpResult 200 [dateLine, endLine])).2.numberOfEvents
        = 0)
    ∧ (containsSubstr eventTrigger summaryLine = false)
    ∧ (containsSubstr eventTrigger endLine = false)
    ∧ ((getIcs (getIcs initFetchState (.httpResult 200 [dateLine, endLine])).2
          (.httpResult 200 [summaryLine, endLine])).2.numberOfEvents = 1)
    ∧ ((getIcs (getIcs initFetchState (.httpResult 200 [dateLine, endLine])).2
          (.httpResult 200 [summaryLine, endLine])).2.events.getD 0 ⟨9, 9, 9, 9⟩ =
        ⟨0, 25, 3, 15⟩) := by
  decide

/-- `parseIcsLine` at full capacity is the identity: the capacity check
comes before any marker processing. -/
theorem parseIcsLine_at_capacity (st : FetchState) (l : List Char)
    (h : maxNumberOfEvents ≤ st.numberOfEvents) : parseIcsLine st l = st := by
  simp [parseIcsLine, h]

/-- One `parseIcsLine` call raises `numberOfEvents` by at most one and
never past `maxNumberOfEvents`. -/
theorem parseIcsLine_le (st : FetchState) (l : List Char)
    (h : st.numberOfEvents ≤ maxNumberOfEvents) :
    (parseIcsLine st l).numberOfEvents ≤ maxNumberOfEvents := by
  by_cases h0 : maxNumberOfEvents ≤ st.numberOfEvents
  · rw [parseIcsLine_at_capacity st l h0]; exact h
  · have hlt : st.numberOfEvents < maxNumberOfEvents := Nat.lt_of_not_le h0
    by_cases h1 : containsSubstr eventTrigger l = true
    · simp [parseIcsLine, h0, h1]; omega
    · by_cases h2 : (st.trigger && containsSubstr eventTypeTrigger l) = true
      · by_cases h3 : findTrashType l < trashTypeCount
        · simp [parseIcsLine, h0, h1, h2, h3]; omega
        · simp [parseIcsLine, h0, h1, h2, h3]; exact h
      · simp [parseIcsLine, h0, h1, h2]; exact h

/-- Below capacity, a date marker line takes the date branch: it sets
the trigger and writes the parsed date into the target slot, leaving
the count unchanged. -/
theorem parseIcsLine_date_branch (st : FetchState) (l : List Char)
    (h0 : ¬ maxNumberOfEvents ≤ st.numberOfEvents)
    (hd : containsSubstr eventTrigger l = true) :
    parseIcsLine st l =
      { st with trigger := true,
                events := setEventDate st.events st.numberOfEvents
                  ((atoi ((l.drop eventTrigger.length).take 4) - 2000) % 256).toNat
                  ((atoi ((l.drop (eventTrigger.length + 4)).take 2)) % 256).toNat
                  ((atoi ((l.drop (eventTrigger.length + 6)).take 2)) % 256).toNat } := by
  simp [parseIcsLine, h0, hd]

/-- Below capacity with the trigger set, the `summaryLine` category
marker resolves to label 0 and commits the pending event. -/
theorem summaryLine_commits (ev : List Event) (n : Nat)
    (h0 : ¬ maxNumberOfEvents ≤ n) :
    parseIcsLine ⟨true, ev, n⟩ summaryLine =
      ⟨false, setEventType ev n (findTrashType summaryLine), n + 1⟩ := by
  simp [parseIcsLine, h0,
    (by decide : containsSubstr eventTrigger summaryLine = false),
    (by decide : containsSubstr eventTypeTrigger summaryLine = true),
    (by decide : findTrashType summaryLine < trashTypeCount)]

/-- Feeding one valid date+category pair to the extractor below capacity
commits exactly one event and clears the trigger. -/
theorem validPair_commits (st : FetchState)
    (h : st.numberOfEvents < maxNumberOfEvents) :
    ((parseIcsLine (parseIcsLine st dateLine) summaryLine).numberOfEvents =
        st.numberOfEvents + 1)
    ∧ ((parseIcsLine (parseIcsLine st dateLine) summaryLine).trigger = false) := by
  have h0 : ¬ maxNumberOfEvents ≤ st.numberOfEvents := Nat.not_le.mpr h
  rw [parseIcsLine_date_branch st dateLine h0 (by decide)]
  rw [summaryLine_commits _ st.numberOfEvents h0]
  exact ⟨rfl, rfl⟩

/-- Running `k` valid pairs through the extractor clamps the count at
`maxNumberOfEvents`. -/
theorem validPairs_count (k : Nat) :
    ∀ st : FetchState, st.numberOfEvents ≤ maxNumberOfEvents →
      ((validPairs k).foldl parseIcsLine st).numberOfEvents =
        min (st.numberOfEvents + k) maxNumberOfEvents := by
  induction k with
  | zero =>
    intro st h
    simpa [validPairs] using (Nat.min_eq_left h).symm
  | succ n ih =>
    intro st h
    simp only [validPairs, List.foldl_cons]
    by_cases hlt : st.numberOfEvents < maxNumberOfEvents
    · have hp := validPair_commits st hlt
      have := ih (parseIcsLine (parseIcsLine st dateLine) summaryLine)
        (by rw [hp.1]; omega)
      rw [this, hp.1]
      omega
    · have h100 : st.numberOfEvents = maxNumberOfEvents := by omega
      rw [parseIcsLine_at_capacity st dateLine (le_of_eq h100.symm)]
      rw [parseIcsLine_at_capacity st summaryLine (le_of_eq h100.symm)]
      rw [ih st h]
      omega

/-- C6: the stored event count never leaves `[0, maxNumberOfEvents]`
under any sequence of extractor inputs; at capacity `parseIcsLine`
ignores every further line (so no write past the `events` array
happens); and a stream of 150 valid date+category pairs yields exactly
100 stored events. -/
theorem c6_capacity_clamp :
    (∀ (st : FetchState) (ls : List (List Char)),
        st.numberOfEvents ≤ maxNumberOfEvents →
          (ls.foldl parseIcsLine st).numberOfEvents ≤ maxNumberOfEvents)
    ∧ (∀ (st : FetchState) (l : List Char),
        maxNumberOfEvents ≤ st.numberOfEvents → parseIcsLine st l = st)
    ∧ (((validPairs 150).foldl parseIcsLine initFetchState).numberOfEvents =
        maxNumberOfEvents) := by
  refine ⟨?_, fun st l h => parseIcsLine_at_capacity st l h, ?_⟩
  · intro st ls
    induction ls generalizing st with
    | nil => intro h; simpa using h
    | cons l rest ih =>
      intro h
      rw [List.foldl_cons]
      exact ih _ (parseIcsLine_le st l h)
  · rw [validPairs_count 150 initFetchState (by decide)]
    decide

/-- Witness for C6 at concrete inputs: one line keeps the count in
range from the initial state, and a full state ignores a date line. -/
theorem c6_capacity_clamp_witness :
    (initFetchState.numberOfEvents ≤ maxNumberOfEvents)
    ∧ (([dateLine].foldl parseIcsLine initFetchState).numberOfEvents ≤
        maxNumberOfEvents)
    ∧ (maxNumberOfEvents ≤ (FetchState.mk false initEvents 100).numberOfEvents)
    ∧ (parseIcsLine (FetchState.mk false initEvents 100) dateLine =
        FetchState.mk false initEvents 100) :=
  ⟨by decide, c6_capacity_clamp.1 initFetchState [dateLine] (by decide),
    by decide, c6_capacity_clamp.2.1 (FetchState.mk false initEvents 100) dateLine
      (by decide)⟩

/-- C7: when the transport succeeds (HTTP 200, body consumed) but zero
events are parsed, `getIcs` reports failure — the same verdict as a
transport error, so the caller takes the same retry path. -/
theorem c7_zero_events_failure :
    (∀ (st : FetchState) (body : List (List Char)),
        (getIcs st (.httpResult 200 body)).2.numberOfEvents = 0 →
          (getIcs st (.httpResult 200 body)).1 = false)
    ∧ (∀ st : FetchState, (getIcs st .connectFail).1 = false) := by
  constructor
  · intro st body h
    by_cases h0 :
        (runLoop ⟨{ st with numberOfEvents := 0 }, [], false⟩ 0 body).fs.numberOfEvents
          = 0
    · simp [getIcs, HTTP_CODE_OK, h0]
    · simp [getIcs, HTTP_CODE_OK, h0] at h
  · intro st; rfl

/-- Witness for C7 at a concrete input: an empty body parses zero
events and the fetch verdict is failure. -/
theorem c7_zero_events_failure_witness :
    ((getIcs initFetchState (.httpResult 200 [])).2.numberOfEvents = 0)
    ∧ ((getIcs initFetchState (.httpResult 200 [])).1 = false) :=
  ⟨by decide, c7_zero_events_failure.1 initFetchState [] (by decide)⟩

/-- The base LED assignment always has one color per pixel. -/
theorem ledBase_length (s : ScanState) : (ledBase s).length = numOfNeoPixels := by
  unfold ledBase
  split
  · simp
  · split
    · simp [numOfNeoPixels]
    · simp

/-- C8: whenever the last fetch attempt failed, the committed LED
assignment has slot 0 forced to full red (255,0,0), overriding whatever
the zero-, single- or multi-match base rule computed for slot 0, while
slots 1 and 2 keep their base-rule colors. -/
theorem c8_failure_overlay (t tn : Tm) (evs : List Event) :
    ((computeLeds t tn evs false).get? 0 = some ⟨255, 0, 0⟩)
    ∧ ((computeLeds t tn evs false).get? 1 = (computeLeds t tn evs true).get? 1)
    ∧ ((computeLeds t tn evs false).get? 2 = (computeLeds t tn evs true).get? 2) := by
  have hlen : (ledBase (todayScan t tn evs)).length = 3 :=
    ledBase_length (todayScan t tn evs)
  obtain ⟨a, b, c, habc⟩ := List.length_eq_three.mp hlen
  simp [computeLeds, habc]

/-- C10: a fetch failing before a successful HTTP GET (unable to
connect, non-positive HTTP result, or a non-OK status) leaves the
extractor globals — event array, count and trigger — exactly as they
were; and on a successful GET the state is the parse of the body
started from the count reset to zero, i.e. the reset happens only after
a successful GET, immediately before body parsing. -/
theorem c10_transport_failure_preserves_events :
    (∀ st : FetchState, getIcs st .connectFail = (false, st))
    ∧ (∀ (st : FetchState) (code : Int) (body : List (List Char)),
        code ≤ 0 → getIcs st (.httpResult code body) = (false, st))
    ∧ (∀ (st : FetchState) (code : Int) (body : List (List Char)),
        0 < code → code ≠ 200 → getIcs st (.httpResult code body) = (false, st))
    ∧ (∀ (st : FetchState) (body : List (List Char)),
        getIcs st (.httpResult 200 body) =
          (let final := runLoop ⟨{ st with numberOfEvents := 0 }, [], false⟩ 0 body
           if final.fs.numberOfEvents = 0 then (false, final.fs)
           else (true, final.fs))) := by
  refine ⟨fun st => rfl, ?_, ?_, ?_⟩
  · intro st code body h
    simp [getIcs, h]
  · intro st code body h1 h2
    have h3 : ¬ code ≤ 0 := by omega
    simp [getIcs, h3, HTTP_CODE_OK, h2]
  · intro st body
    simp [getIcs, HTTP_CODE_OK]

/-- Witness for C10 at concrete inputs: a negative HTTP result and a
404 both leave the initial state untouched. -/
theorem c10_transport_failure_preserves_events_witness :
    (getIcs initFetchState (.httpResult (-1) [dateLine]) = (false, initFetchState))
    ∧ (getIcs initFetchState (.httpResult 404 [dateLine]) = (false, initFetchState)) :=
  ⟨c10_transport_failure_preserves_events.2.1 initFetchState (-1) [dateLine]
      (by decide),
    c10_transport_failure_preserves_events.2.2.1 initFetchState 404 [dateLine]
      (by decide) (by decide)⟩

/-- After scanning a list ending in event `e`, the loop-carried
`thisDay` flag holds the today-test of that LAST event, whether or not
it matched anything. -/
theorem scan_thisDay_concat (t tn : Tm) (l : List Event) (e : Event)
    (s : ScanState) :
    ((l ++ [e]).foldl (todayScanStep t tn) s).thisDay = isEventOnDate e t := by
  rw [List.foldl_append]
  simp only [List.foldl_cons, List.foldl_nil]
  by_cases h : (isEventOnDate e t || isEventOnDate e tn) = true
  · simp [todayScanStep, h]
  · simp [todayScanStep, h]

/-- The `r`, `g`, `b` bytes always hold the color of the event behind
the LAST `todaysEvents` entry: the scan writes them exactly when it
appends an entry. -/
theorem scan_rgb_last (t tn : Tm) (l : List Event) :
    ∀ s : ScanState,
      (∀ te, s.todaysEvents.getLast? = some te →
        s.r = colorRed te.type ∧ s.g = colorGreen te.type ∧ s.b = colorBlue te.type) →
      ∀ te, (l.foldl (todayScanStep t tn) s).todaysEvents.getLast? = some te →
        (l.foldl (todayScanStep t tn) s).r = colorRed te.type
        ∧ (l.foldl (todayScanStep t tn) s).g = colorGreen te.type
        ∧ (l.foldl (todayScanStep t tn) s).b = colorBlue te.type := by
  induction l with
  | nil => intro s hs te hte; exact hs te hte
  | cons e rest ih =>
    intro s hs te hte
    rw [List.foldl_cons] at hte ⊢
    refine ih (todayScanStep t tn s e) ?_ te hte
    by_cases h : (isEventOnDate e t || isEventOnDate e tn) = true
    · intro te' hte'
      simp only [todayScanStep, h, if_true] at hte' ⊢
      rw [List.getLast?_concat] at hte'
      cases hte'
      exact ⟨rfl, rfl, rfl⟩
    · intro te' hte'
      simp only [todayScanStep, h, if_false] at hte' ⊢
      simp only [Bool.not_eq_true] at h
      simp [h] at hte' ⊢
      exact hs te' hte'

/-- C2 counterexample: a single stored event dated today (category 0,
Residual) yields exactly one `TodaysEvent` tagged `TODAY`, but the
computed LED assignment is `[black, (150,150,140), black]` — the CENTER
slot carries the category color and the outer slots are black — not the
claimed `[(150,150,140), black, (150,150,140)]`.  Moreover, with a
second stored event matching neither day scanned last, the same unique
`TODAY`-tagged match yields ALL slots colored, because the branch reads
the stale `thisDay` flag of the last scanned event instead of the
match's tag. -/
theorem c2_center_counterexample :
    ((todayScan ⟨125, 2, 15⟩ ⟨125, 2, 16⟩ [⟨0, 25, 3, 15⟩]).todaysEvents =
      [⟨0, TodaysEventDay.TODAY⟩])
    ∧ (computeLeds ⟨125, 2, 15⟩ ⟨125, 2, 16⟩ [⟨0, 25, 3, 15⟩] true =
        [⟨0, 0, 0⟩, ⟨150, 150, 140⟩, ⟨0, 0, 0⟩])
    ∧ (computeLeds ⟨125, 2, 15⟩ ⟨125, 2, 16⟩ [⟨0, 25, 3, 15⟩] true ≠
        [⟨150, 150, 140⟩, ⟨0, 0, 0⟩, ⟨150, 150, 140⟩])
    ∧ ((todayScan ⟨125, 2, 15⟩ ⟨125, 2, 16⟩
          [⟨0, 25, 3, 15⟩, ⟨1, 25, 3, 20⟩]).todaysEvents =
        [⟨0, TodaysEventDay.TODAY⟩])
    ∧ (computeLeds ⟨125, 2, 15⟩ ⟨125, 2, 16⟩ [⟨0, 25, 3, 15⟩, ⟨1, 25, 3, 20⟩] true =
        [⟨150, 150, 140⟩, ⟨150, 150, 140⟩, ⟨150, 150, 140⟩]) := by
  decide

/-- C2 amended: when the scan finds exactly one matching `TodaysEvent`,
the committed base assignment depends on whether the LAST stored event
lies on today's date (the branch reads the loop-stale `thisDay` flag,
not the match's tag): if it does, the CENTER slot (index
`numOfNeoPixels / 2 = 1`) shows the match's category color and every
other slot is black; otherwise all three slots show the category
color. -/
theorem c2_single_match_display (t tn : Tm) (evs : List Event) (e : TodaysEvent)
    (h : (todayScan t tn evs).todaysEvents = [e]) :
    ∃ last, evs.getLast? = some last ∧
      computeLeds t tn evs true =
        (if isEventOnDate last t = true then
          [⟨0, 0, 0⟩, colorOfType e.type, ⟨0, 0, 0⟩]
         else [colorOfType e.type, colorOfType e.type, colorOfType e.type]) := by
  rcases List.eq_nil_or_concat' evs with hnil | ⟨l, last, hsplit⟩
  · rw [hnil] at h
    simp [todayScan, initScan] at h
  · subst hsplit
    refine ⟨last, List.getLast?_concat l, ?_⟩
    have hthis : (todayScan t tn (l ++ [last])).thisDay = isEventOnDate last t :=
      scan_thisDay_concat t tn l last initScan
    have hlast : (todayScan t tn (l ++ [last])).todaysEvents.getLast? = some e := by
      rw [h]; rfl
    have hrgb := scan_rgb_last t tn (l ++ [last]) initScan
      (by intro te hte; simp [initScan] at hte) e hlast
    have hr : (todayScan t tn (l ++ [last])).r = colorRed e.type := hrgb.1
    have hg : (todayScan t tn (l ++ [last])).g = colorGreen e.type := hrgb.2.1
    have hb : (todayScan t tn (l ++ [last])).b = colorBlue e.type := hrgb.2.2
    have hlen : (todayScan t tn (l ++ [last])).todaysEvents.length = 1 := by
      rw [h]; rfl
    have hrange : List.range 3 = [0, 1, 2] := rfl
    by_cases hc : isEventOnDate last t = true
    · rw [if_pos hc]
      rw [hc] at hthis
      simp [computeLeds, ledBase, hlen, hrange, hthis, hr, hg, hb, colorOfType,
        numOfNeoPixels]
    · rw [if_neg hc]
      have hc' : isEventOnDate last t = false := by
        simpa using hc
      rw [hc'] at hthis
      simp [computeLeds, ledBase, hlen, hrange, hthis, hr, hg, hb, colorOfType,
        numOfNeoPixels]

/-- Witness for the C2 amended theorem at a concrete input. -/
theorem c2_single_match_display_witness :
    ((todayScan ⟨125, 2, 15⟩ ⟨125, 2, 16⟩ [⟨0, 25, 3, 15⟩]).todaysEvents =
      [⟨0, TodaysEventDay.TODAY⟩])
    ∧ (∃ last, ([(⟨0, 25, 3, 15⟩ : Event)]).getLast? = some last ∧
        computeLeds ⟨125, 2, 15⟩ ⟨125, 2, 16⟩ [⟨0, 25, 3, 15⟩] true =
          (if isEventOnDate last ⟨125, 2, 15⟩ = true then
            [⟨0, 0, 0⟩, colorOfType (TodaysEvent.mk 0 TodaysEventDay.TODAY).type, ⟨0, 0, 0⟩]
           else [colorOfType (TodaysEvent.mk 0 TodaysEventDay.TODAY).type,
                 colorOfType (TodaysEvent.mk 0 TodaysEventDay.TODAY).type,
                 colorOfType (TodaysEvent.mk 0 TodaysEventDay.TODAY).type])) :=
  ⟨by decide,
    c2_single_match_display ⟨125, 2, 15⟩ ⟨125, 2, 16⟩ [⟨0, 25, 3, 15⟩]
      ⟨0, TodaysEventDay.TODAY⟩ (by decide)⟩

end Abfuhrkalender
